import Mathlib

/-!
Verification of the handle/registry core of `vulkan_software_rasterizer`
(`src/runtime/src/lib.rs`).

The runtime keeps a process-wide `Context` holding one collection per object
category: `Vec<Arc<T>>` for dispatchable objects and
`HashMap<VkNonDispatchableHandle, Arc<Mutex<T>>>` for non-dispatchable ones,
plus a process-wide `ID_COUNTER : AtomicU64` (initialised to 1) that mints
non-dispatchable handle identities.

Shallow embedding choices:
- `HashMap` is modelled by an association list with unique keys
  (`insert` replaces, `erase` removes, `lookup` finds).
- `Arc` strong counts are modelled explicitly: each non-dispatchable map entry
  is a pair `(object, strongCount)`, and the dispatchable side carries a
  separate `refs` table keyed by pointer identity.
- `AtomicU64::fetch_add(1, Relaxed)` wraps on overflow; the counter is kept as
  an unbounded `Nat` and the wrap is applied where the `u64` value is read
  (`v % 2^64`), which is arithmetically identical.
- Rust panics (`unwrap` on a missing entry, a failed `assert_eq!`) are the
  `.error` case of an `Except Panic` result.
-/

namespace VSR

/-- Association list standing in for `std::collections::HashMap`:
`insert` replaces any previous binding, `erase` removes it, `lookup` finds it. -/
abbrev AssocMap (κ ν : Type) : Type := List (κ × ν)

namespace AssocMap

variable {κ ν : Type} [DecidableEq κ]

def lookup (k : κ) : AssocMap κ ν → Option ν
  | [] => none
  | (k', v) :: rest => if k' = k then some v else lookup k rest

def erase (k : κ) : AssocMap κ ν → AssocMap κ ν
  | [] => []
  | (k', v) :: rest => if k' = k then erase k rest else (k', v) :: erase k rest

def insert (k : κ) (v : ν) (m : AssocMap κ ν) : AssocMap κ ν :=
  (k, v) :: erase k m

theorem lookup_erase_self (k : κ) (m : AssocMap κ ν) :
    lookup k (erase k m) = none := by
  induction m with
  | nil => rfl
  | cons p rest ih =>
    obtain ⟨k', v⟩ := p
    by_cases h : k' = k <;> simp [erase, lookup, h, ih]

theorem lookup_insert_self (k : κ) (v : ν) (m : AssocMap κ ν) :
    lookup k (insert k v m) = some v := by
  simp [insert, lookup]

theorem mem_erase {p : κ × ν} {k : κ} {m : AssocMap κ ν} (h : p ∈ erase k m) :
    p ∈ m := by
  induction m with
  | nil => simp [erase] at h
  | cons q rest ih =>
    obtain ⟨k', v⟩ := q
    simp only [erase] at h
    by_cases hq : k' = k
    · rw [if_pos hq] at h
      exact List.mem_cons_of_mem _ (ih h)
    · rw [if_neg hq] at h
      rcases List.mem_cons.mp h with h' | h'
      · exact h' ▸ List.mem_cons_self _ _
      · exact List.mem_cons_of_mem _ (ih h')

theorem mem_insert {p : κ × ν} {k : κ} {v : ν} {m : AssocMap κ ν}
    (h : p ∈ insert k v m) : p = (k, v) ∨ p ∈ m := by
  rcases List.mem_cons.mp h with h' | h'
  · exact Or.inl h'
  · exact Or.inr (mem_erase h')

theorem erase_of_keys_ne (k : κ) (m : AssocMap κ ν)
    (h : ∀ p ∈ m, p.1 ≠ k) : erase k m = m := by
  induction m with
  | nil => rfl
  | cons q rest ih =>
    obtain ⟨k', v⟩ := q
    have hq : k' ≠ k := h (k', v) (List.mem_cons_self _ _)
    simp only [erase, if_neg hq]
    rw [ih (fun p hp => h p (List.mem_cons_of_mem _ hp))]

end AssocMap

/-- `2^64`, the modulus of Rust's `u64`. -/
def U64_MOD : Nat := 2 ^ 64

/-- `VkNonDispatchableHandle` wraps `Option<NonZeroU64>`; `none` is
`VK_NULL_HANDLE`. -/
abbrev Handle : Type := Option Nat

/-- The handle built in `NonDispatchable::register_object`:
`VkNonDispatchableHandle(NonZeroU64::new(ID_COUNTER.fetch_add(1, Relaxed)))`.
`fetch_add` returns the previous counter value truncated to `u64`;
`NonZeroU64::new` maps `0` to `None` (the null handle). -/
def mkHandle (counter : Nat) : Handle :=
  let v := counter % U64_MOD
  if v = 0 then none else some v

/-- `VK_FENCE_CREATE_SIGNALED_BIT` (Vulkan: `0x00000001`). -/
def VK_FENCE_CREATE_SIGNALED_BIT : Nat := 1

/-- `Fence` from `lib.rs`. `logical_device` is the pointer identity of the
owning `Arc<LogicalDevice>`. -/
structure Fence where
  handle : Handle
  logical_device : Nat
  flags : Nat
  signaled : Bool
deriving DecidableEq, Repr

/-- `Semaphore` from `lib.rs`. -/
structure Semaphore where
  handle : Handle
  flags : Nat
deriving DecidableEq, Repr

/-- The non-dispatchable side of the process state: the `fences` and
`semaphores` maps of `Context` together with the global `ID_COUNTER`.
Each map entry carries the `Arc` strong count of the stored object. -/
structure Context where
  fences : AssocMap Handle (Fence × Nat)
  semaphores : AssocMap Handle (Semaphore × Nat)
  id_counter : Nat
deriving DecidableEq, Repr

/-- `CONTEXT` right after `lazy_static` initialisation:
empty collections, `ID_COUNTER` at 1. -/
def Context.initial : Context :=
  { fences := [], semaphores := [], id_counter := 1 }

/-- A Rust panic (`Option::unwrap` on `None`, or a failed `assert_eq!`). -/
inductive Panic where
  | unwrapFailed
  | assertionFailed
deriving DecidableEq, Repr

namespace Fence

/-- `NonDispatchable::set_handle` for `Fence`. -/
def set_handle (f : Fence) (handle : Handle) : Fence :=
  { f with handle := handle }

/-- `NonDispatchable::get_handle` for `Fence`. -/
def get_handle (f : Fence) : Handle :=
  f.handle

/-- `NonDispatchable::register_object` instantiated at `Fence`:
mints a handle from `ID_COUNTER.fetch_add(1)`, wraps the object in a fresh
`Arc` (strong count 1 once the local clone is dropped), inserts it in the
`fences` map and writes the handle back into the shared object before
returning the handle. -/
def register_object (ctx : Context) (f : Fence) : Handle × Context :=
  let handle := mkHandle ctx.id_counter
  (handle,
    { ctx with
      id_counter := ctx.id_counter + 1
      fences := AssocMap.insert handle (set_handle f handle, 1) ctx.fences })

/-- `NonDispatchable::from_handle` instantiated at `Fence`:
`get_hash(&context).get(&handle).unwrap().clone()`. A missing entry makes the
`unwrap` panic; a present entry is cloned (strong count +1) and returned. -/
def from_handle (ctx : Context) (h : Handle) : Except Panic (Fence × Context) :=
  match AssocMap.lookup h ctx.fences with
  | none => .error .unwrapFailed
  | some (f, c) =>
      .ok (f, { ctx with fences := AssocMap.insert h (f, c + 1) ctx.fences })

/-- `NonDispatchable::drop_handle` instantiated at `Fence`:
`get_hash_mut(&mut context).remove(&handle)` - the entry is removed
unconditionally; the function has no failure path and no assertion. -/
def drop_handle (ctx : Context) (h : Handle) : Context :=
  { ctx with fences := AssocMap.erase h ctx.fences }

/-- The `Self { handle, logical_device, flags, signaled }` literal built inside
`Fence::create`: `handle = VK_NULL_HANDLE`,
`signaled = (flags & VK_FENCE_CREATE_SIGNALED_BIT) != 0`. -/
def fromCreateInfo (logical_device : Nat) (flags : Nat) : Fence :=
  { handle := none
    logical_device := logical_device
    flags := flags
    signaled := flags &&& VK_FENCE_CREATE_SIGNALED_BIT != 0 }

/-- `Fence::create`: build the fence value, then `register_object`. -/
def create (ctx : Context) (logical_device : Nat) (flags : Nat) :
    Handle × Context :=
  register_object ctx (fromCreateInfo logical_device flags)

/-- `Fence::signal`. -/
def signal (f : Fence) : Fence :=
  { f with signaled := true }

/-- `Fence::reset`. -/
def reset (f : Fence) : Fence :=
  { f with signaled := false }

end Fence

namespace Semaphore

/-- `NonDispatchable::set_handle` for `Semaphore`. -/
def set_handle (s : Semaphore) (handle : Handle) : Semaphore :=
  { s with handle := handle }

/-- `NonDispatchable::get_handle` for `Semaphore`. -/
def get_handle (s : Semaphore) : Handle :=
  s.handle

/-- `NonDispatchable::register_object` instantiated at `Semaphore`
(same trait default body as for `Fence`, acting on the `semaphores` map). -/
def register_object (ctx : Context) (s : Semaphore) : Handle × Context :=
  let handle := mkHandle ctx.id_counter
  (handle,
    { ctx with
      id_counter := ctx.id_counter + 1
      semaphores := AssocMap.insert handle (set_handle s handle, 1) ctx.semaphores })

/-- `NonDispatchable::drop_handle` instantiated at `Semaphore`. -/
def drop_handle (ctx : Context) (h : Handle) : Context :=
  { ctx with semaphores := AssocMap.erase h ctx.semaphores }

/-- `Semaphore::create`: build `Self { handle: VK_NULL_HANDLE, flags }`,
then `register_object`. -/
def create (ctx : Context) (flags : Nat) : Handle × Context :=
  register_object ctx { handle := none, flags := flags }

end Semaphore

namespace LogicalDevice

/-- `LogicalDevice::wait_for_fences`. `self` is the pointer identity of the
calling device. The loop skips (`continue`) every fence whose
`logical_device` back-reference is not `self`; the body for owned fences is a
`TODO` placeholder, so no fence is modified either way. The result is the
final state of each listed fence. -/
def wait_for_fences (self : Nat) (fences : List Fence) (wait_all : Bool)
    (timeout : Nat) : List Fence :=
  let _ := wait_all
  let _ := timeout
  fences.map (fun fence =>
    if fence.logical_device ≠ self then fence else fence)

/-- `LogicalDevice::reset_fences`: `fence.lock().reset()` on every listed
fence. The source has no device-ownership check (only a
`TODO: VUID-vkResetFences-pFences-01123` comment). -/
def reset_fences (self : Nat) (fences : List Fence) : List Fence :=
  let _ := self
  fences.map Fence.reset

end LogicalDevice

/-!
Dispatchable protocol (`trait Dispatchable` in `lib.rs`), modelled for one
object category. `objects` is the category's `Vec<Arc<T>>` inside `Context`
(elements are pointer identities of the `Arc` allocations); `refs` records the
`Arc` strong count of every live allocation.
-/

structure DispState where
  objects : List Nat
  refs : AssocMap Nat Nat
deriving DecidableEq, Repr

namespace DispState

/-- `Arc::strong_count` of the allocation at pointer `p` (0 if dead). -/
def refCount (st : DispState) (p : Nat) : Nat :=
  (AssocMap.lookup p st.refs).getD 0

end DispState

namespace Dispatchable

/-- `Dispatchable::unregister_object`: find the position of the entry that is
pointer-equal to `self` (`position(..).unwrap()` panics if absent), remove it
from the `Vec`; dropping the `Vec`'s `Arc` clone decrements the strong
count. -/
def unregister_object (st : DispState) (p : Nat) : Except Panic DispState :=
  if p ∈ st.objects then
    .ok { objects := st.objects.erase p
          refs := AssocMap.insert p (st.refCount p - 1) st.refs }
  else
    .error .unwrapFailed

/-- `Dispatchable::drop_handle`: `unregister_object`, then
`assert_eq!(Arc::strong_count(&self), 1)` (panic if it fails), then `drop(self)`
frees the allocation. -/
def drop_handle (st : DispState) (p : Nat) : Except Panic DispState :=
  match unregister_object st p with
  | .error e => .error e
  | .ok st' =>
      if st'.refCount p = 1 then
        .ok { st' with refs := AssocMap.erase p st'.refs }
      else
        .error .assertionFailed

/-- `Dispatchable::from_handle`: a `None` handle maps to `None`; a `Some`
handle is transmuted back to the allocation pointer, its strong count is
incremented (`Arc::increment_strong_count` + `Arc::from_raw`), and the
reconstructed shared reference is returned. -/
def from_handle (st : DispState) (h : Option Nat) : Option Nat × DispState :=
  match h with
  | none => (none, st)
  | some p =>
      (some p, { st with refs := AssocMap.insert p (st.refCount p + 1) st.refs })

end Dispatchable

/-!
`PhysicalDevice::get`. The `physical_devices` `Vec` of `Context`, with pointer
identities for the `Arc` allocations; `next_ptr` models the address of the next
fresh `Arc::new` allocation.
-/

structure PDState where
  physical_devices : List Nat
  next_ptr : Nat
deriving DecidableEq, Repr

namespace PhysicalDevice

/-- `PhysicalDevice::physical_device_count`. -/
def physical_device_count : Nat := 1

/-- `PhysicalDevice::get`: if the `Vec` holds fewer than
`physical_device_count` devices, allocate and push a new one; then return a
clone of `physical_devices.last().unwrap()` (`getLast?` is `none` exactly when
the `unwrap` would panic). -/
def get (st : PDState) : Option Nat × PDState :=
  let st' :=
    if st.physical_devices.length < physical_device_count then
      { physical_devices := st.physical_devices ++ [st.next_ptr]
        next_ptr := st.next_ptr + 1 }
    else st
  (st'.physical_devices.getLast?, st')

end PhysicalDevice

/-!
Traces of non-dispatchable registrations and destructions, for the
process-lifetime claims about `ID_COUNTER`.
-/

/-- One externally triggered non-dispatchable operation. -/
inductive Op where
  | createFence (logical_device flags : Nat)
  | destroyFence (h : Handle)
  | createSemaphore (flags : Nat)
  | destroySemaphore (h : Handle)
deriving DecidableEq, Repr

/-- Effect of one operation on the shared state. -/
def stepCtx (ctx : Context) : Op → Context
  | .createFence ld fl => (Fence.create ctx ld fl).2
  | .destroyFence h => Fence.drop_handle ctx h
  | .createSemaphore fl => (Semaphore.create ctx fl).2
  | .destroySemaphore h => Semaphore.drop_handle ctx h

/-- Run a trace of operations. -/
def run (ctx : Context) : List Op → Context
  | [] => ctx
  | op :: ops => run (stepCtx ctx op) ops

/-- The handles returned to the caller across a trace, in order. -/
def returnedHandles (ctx : Context) : List Op → List Handle
  | [] => []
  | op :: ops =>
      match op with
      | .createFence ld fl =>
          (Fence.create ctx ld fl).1 :: returnedHandles (stepCtx ctx op) ops
      | .createSemaphore fl =>
          (Semaphore.create ctx fl).1 :: returnedHandles (stepCtx ctx op) ops
      | _ => returnedHandles (stepCtx ctx op) ops

/-- Number of registrations (handle allocations) in a trace. -/
def countRegs : List Op → Nat
  | [] => 0
  | .createFence _ _ :: ops => countRegs ops + 1
  | .createSemaphore _ :: ops => countRegs ops + 1
  | .destroyFence _ :: ops => countRegs ops
  | .destroySemaphore _ :: ops => countRegs ops

/-- All keys in the registry maps are non-null handles. -/
def GoodKeys (ctx : Context) : Prop :=
  (∀ p ∈ ctx.fences, p.1 ≠ (none : Handle)) ∧
  (∀ p ∈ ctx.semaphores, p.1 ≠ (none : Handle))

/-!
## Claim theorems
-/

/-- C1 (amended): after `NonDispatchable::drop_handle` removes `h`, the
registry map no longer contains `h`, so a subsequent
`NonDispatchable::from_handle` can never return a stale object - but instead
of returning a not-found value it panics (`unwrap` on the missing map
entry). -/
theorem fence_resolve_after_destroy_not_found (ctx : Context) (h : Handle) :
    AssocMap.lookup h (Fence.drop_handle ctx h).fences = none ∧
    Fence.from_handle (Fence.drop_handle ctx h) h = .error .unwrapFailed := by
  refine ⟨AssocMap.lookup_erase_self h ctx.fences, ?_⟩
  simp [Fence.from_handle, Fence.drop_handle, AssocMap.lookup_erase_self]

/-- C1 counterexample: on the concrete trace "create a fence, destroy it,
resolve its handle", `NonDispatchable::from_handle` panics (`unwrap` on a
missing entry); it does not return a nothing/null outcome - indeed its return
type (`Arc<Mutex<Self>>`) has no such case. -/
theorem fence_resolve_after_destroy_panics :
    Fence.from_handle
      (Fence.drop_handle (Fence.create Context.initial 0 0).2
        (Fence.create Context.initial 0 0).1)
      (Fence.create Context.initial 0 0).1 = .error .unwrapFailed := by
  rfl

/-- C4 (amended): `wait_for_fences` leaves every listed fence untouched - in
particular every fence not owned by the calling device is skipped by the
ownership test, and the owned ones hit a placeholder body - while
`reset_fences` resets every listed fence with no ownership check at all. -/
theorem wait_skips_foreign_reset_resets_all (self : Nat) (fences : List Fence)
    (wait_all : Bool) (timeout : Nat) :
    LogicalDevice.wait_for_fences self fences wait_all timeout = fences ∧
    LogicalDevice.reset_fences self fences = fences.map Fence.reset := by
  constructor
  · simp [LogicalDevice.wait_for_fences]
  · rfl

/-- C4 counterexample: a signaled fence owned by device 2 is passed to
`reset_fences` on device 1; its state is reset to unsignaled instead of being
silently skipped. -/
theorem reset_fences_resets_foreign_fence :
    LogicalDevice.reset_fences 1
        [{ handle := some 5, logical_device := 2, flags := 0, signaled := true }]
      = [{ handle := some 5, logical_device := 2, flags := 0, signaled := false }]
    ∧ (Fence.logical_device
        { handle := some 5, logical_device := 2, flags := 0, signaled := true }) ≠ 1 := by
  decide

/-- C5: `NonDispatchable::register_object` allocates a fresh `HandleId`
(advancing `ID_COUNTER`) and writes it back into the object before the handle
is returned: the object stored under the returned key `h` is exactly the
argument with its handle field set to `h`, so its `get_handle()` agrees with
its registry key. -/
theorem register_object_handle_agrees (ctx : Context) (f : Fence) :
    AssocMap.lookup (Fence.register_object ctx f).1
        (Fence.register_object ctx f).2.fences
      = some (Fence.set_handle f (Fence.register_object ctx f).1, 1) ∧
    Fence.get_handle (Fence.set_handle f (Fence.register_object ctx f).1)
      = (Fence.register_object ctx f).1 ∧
    (Fence.register_object ctx f).2.id_counter = ctx.id_counter + 1 := by
  refine ⟨?_, rfl, rfl⟩
  simp [Fence.register_object, AssocMap.lookup_insert_self]

/-- C6: the fence built by `Fence::create` is signaled iff
`VK_FENCE_CREATE_SIGNALED_BIT` (bit 0) is set in the creation flags, and that
is exactly the fence value stored in the registry (up to the handle
write-back). -/
theorem fence_create_signaled_iff_bit (ctx : Context) (ld flags : Nat) :
    ((Fence.fromCreateInfo ld flags).signaled = true ↔ flags.testBit 0 = true) ∧
    AssocMap.lookup (Fence.create ctx ld flags).1
        (Fence.create ctx ld flags).2.fences
      = some (Fence.set_handle (Fence.fromCreateInfo ld flags)
          (Fence.create ctx ld flags).1, 1) ∧
    (Fence.set_handle (Fence.fromCreateInfo ld flags)
        (Fence.create ctx ld flags).1).signaled
      = (Fence.fromCreateInfo ld flags).signaled := by
  refine ⟨?_, ?_, rfl⟩
  · rcases Nat.mod_two_eq_zero_or_one flags with h | h <;>
      simp [Fence.fromCreateInfo, VK_FENCE_CREATE_SIGNALED_BIT,
        Nat.and_one_is_mod, Nat.testBit_zero, h]
  · simp [Fence.create, Fence.register_object, AssocMap.lookup_insert_self]

/-- C7: `Fence::signal` and `Fence::reset` are idempotent - two signals leave
the fence signaled (and equal to one signal), two resets leave it unsignaled -
and `reset` immediately after creation (in particular with the signaled flag
set) yields an unsignaled fence. -/
theorem fence_signal_reset_idempotent (f : Fence) (ld flags : Nat) :
    Fence.signal (Fence.signal f) = Fence.signal f ∧
    (Fence.signal (Fence.signal f)).signaled = true ∧
    Fence.reset (Fence.reset f) = Fence.reset f ∧
    (Fence.reset (Fence.reset f)).signaled = false ∧
    (Fence.reset (Fence.fromCreateInfo ld flags)).signaled = false := by
  exact ⟨rfl, rfl, rfl, rfl, rfl⟩

/-- C10: `Dispatchable::from_handle` is total on the null handle - it returns
`None` and leaves every strong count untouched - and on a non-null handle it
returns `Some` of the reconstructed shared reference after incrementing its
strong count. -/
theorem dispatchable_from_handle_null_none (st : DispState) (p : Nat) :
    Dispatchable.from_handle st none = (none, st) ∧
    (Dispatchable.from_handle st (some p)).1 = some p ∧
    (Dispatchable.from_handle st (some p)).2.refCount p = st.refCount p + 1 := by
  refine ⟨rfl, rfl, ?_⟩
  simp [Dispatchable.from_handle, DispState.refCount, AssocMap.lookup_insert_self]

/-- C3 (amended): only the dispatchable destroy asserts the final reference:
for a registered dispatchable object, `Dispatchable::drop_handle` succeeds
exactly when the strong count before the call is 2 (registry's reference plus
the caller's, so count 1 right before the drop) and panics on the assertion
otherwise; `NonDispatchable::drop_handle`, by contrast, removes the registry
entry unconditionally - whatever the entry's strong count `c`, the entry is
gone afterwards and no failure is signalled. -/
theorem destroy_final_reference_assertion (st : DispState) (p : Nat)
    (hp : p ∈ st.objects) (ctx : Context) (h : Handle) (f : Fence) (c : Nat)
    (_hl : AssocMap.lookup h ctx.fences = some (f, c)) :
    ((∃ st', Dispatchable.drop_handle st p = .ok st') ↔ st.refCount p = 2) ∧
    AssocMap.lookup h (Fence.drop_handle ctx h).fences = none := by
  refine ⟨?_, AssocMap.lookup_erase_self h ctx.fences⟩
  simp only [Dispatchable.drop_handle, Dispatchable.unregister_object,
    if_pos hp, DispState.refCount, AssocMap.lookup_insert_self, Option.getD_some]
  constructor
  · rintro ⟨st', hok⟩
    by_cases hc : (AssocMap.lookup p st.refs).getD 0 - 1 = 1
    · omega
    · simp [hc] at hok
  · intro hc
    have h1 : (AssocMap.lookup p st.refs).getD 0 - 1 = 1 := by omega
    exact ⟨_, by rw [if_pos h1]⟩

/-- Witness scenario for C3: pointer 7 is a registered dispatchable object
with strong count 2, and handle 1 maps to a fence entry with strong count 5. -/
theorem destroy_final_reference_assertion_witness :
    ((7 : Nat) ∈ (DispState.mk [7] [(7, 2)]).objects) ∧
    (AssocMap.lookup (some 1)
        (Context.mk
          [(some 1,
            ({ handle := some 1, logical_device := 0, flags := 0,
               signaled := true } : Fence), 5)] [] 2).fences
      = some ({ handle := some 1, logical_device := 0, flags := 0,
                signaled := true }, 5)) ∧
    (((∃ st', Dispatchable.drop_handle (DispState.mk [7] [(7, 2)]) 7 = .ok st')
        ↔ (DispState.mk [7] [(7, 2)]).refCount 7 = 2) ∧
      AssocMap.lookup (some 1)
        (Fence.drop_handle
          (Context.mk
            [(some 1,
              ({ handle := some 1, logical_device := 0, flags := 0,
                 signaled := true } : Fence), 5)] [] 2) (some 1)).fences
        = none) :=
  ⟨by decide, by decide,
    destroy_final_reference_assertion (DispState.mk [7] [(7, 2)]) 7 (by decide)
      (Context.mk
        [(some 1,
          ({ handle := some 1, logical_device := 0, flags := 0,
             signaled := true } : Fence), 5)] [] 2) (some 1)
      { handle := some 1, logical_device := 0, flags := 0, signaled := true } 5
      (by decide)⟩

/-- C3 counterexample: a fence entry whose strong count is 3 (two references
besides the registry's survive) is destroyed by
`NonDispatchable::drop_handle`; the call completes normally and merely removes
the entry - there is no reference-count assertion and no loud failure. -/
theorem fence_drop_handle_no_refcount_assertion :
    Fence.drop_handle
        { fences := [(some 1,
            { handle := some 1, logical_device := 0, flags := 0,
              signaled := false }, 3)]
          semaphores := []
          id_counter := 2 } (some 1)
      = { fences := [], semaphores := [], id_counter := 2 } := by
  decide

/-- C9: `PhysicalDevice::get` is lazily caching: starting from a registry
holding at most `physical_device_count` (= 1) devices, the count never exceeds
that bound, a first call on an empty registry creates and stores exactly one
device, and calling `get` again after any call returns the very same shared
object and leaves the registry unchanged. -/
theorem physical_device_get_lazy_cached (st : PDState)
    (hlen : st.physical_devices.length ≤ PhysicalDevice.physical_device_count) :
    (PhysicalDevice.get st).2.physical_devices.length
        ≤ PhysicalDevice.physical_device_count ∧
    PhysicalDevice.get (PhysicalDevice.get st).2
        = ((PhysicalDevice.get st).1, (PhysicalDevice.get st).2) ∧
    (st.physical_devices = [] →
      (PhysicalDevice.get st).2.physical_devices = [st.next_ptr]) := by
  obtain ⟨devs, np⟩ := st
  cases devs with
  | nil =>
      refine ⟨by simp [PhysicalDevice.get, PhysicalDevice.physical_device_count], ?_, by
        simp [PhysicalDevice.get, PhysicalDevice.physical_device_count]⟩
      simp [PhysicalDevice.get, PhysicalDevice.physical_device_count]
  | cons d ds =>
      have hds : ds = [] := by
        have h1 : (d :: ds).length ≤ 1 := hlen
        simp only [List.length_cons] at h1
        exact List.length_eq_zero.mp (by omega)
      subst hds
      refine ⟨by simp [PhysicalDevice.get, PhysicalDevice.physical_device_count], ?_,
        by simp⟩
      simp [PhysicalDevice.get, PhysicalDevice.physical_device_count]

/-- Witness for C9 at the empty registry. -/
theorem physical_device_get_lazy_cached_witness :
    (PDState.mk [] 0).physical_devices.length
        ≤ PhysicalDevice.physical_device_count ∧
    ((PhysicalDevice.get (PDState.mk [] 0)).2.physical_devices.length
        ≤ PhysicalDevice.physical_device_count ∧
      PhysicalDevice.get (PhysicalDevice.get (PDState.mk [] 0)).2
        = ((PhysicalDevice.get (PDState.mk [] 0)).1,
           (PhysicalDevice.get (PDState.mk [] 0)).2) ∧
      ((PDState.mk [] 0).physical_devices = [] →
        (PhysicalDevice.get (PDState.mk [] 0)).2.physical_devices
          = [(PDState.mk [] 0).next_ptr])) :=
  ⟨by decide, physical_device_get_lazy_cached (PDState.mk [] 0) (by decide)⟩

/-- While the counter has not yet wrapped around `u64`, the minted handle is
`some` of the counter value. -/
theorem mkHandle_eq (c : Nat) (h1 : 1 ≤ c) (h2 : c < U64_MOD) :
    mkHandle c = some c := by
  simp only [mkHandle]
  rw [Nat.mod_eq_of_lt h2, if_neg (by omega)]

/-- Handles returned along a trace are all non-null and bounded below by the
counter at the start of the trace, and are pairwise distinct - provided the
counter does not wrap around `u64` during the trace. -/
theorem returnedHandles_bounded (ops : List Op) :
    ∀ ctx : Context, 1 ≤ ctx.id_counter →
      ctx.id_counter + countRegs ops ≤ U64_MOD →
      (∀ h ∈ returnedHandles ctx ops, ∃ v, h = some v ∧ ctx.id_counter ≤ v) ∧
      (returnedHandles ctx ops).Nodup := by
  induction ops with
  | nil =>
      intro ctx _ _
      exact ⟨fun h hh => absurd hh (by simp [returnedHandles]), List.nodup_nil⟩
  | cons op ops ih =>
      intro ctx h1 h2
      cases op with
      | createFence ld fl =>
          have hcnt : countRegs (Op.createFence ld fl :: ops) = countRegs ops + 1 := rfl
          have hlt : ctx.id_counter < U64_MOD := by omega
          have hmk : mkHandle ctx.id_counter = some ctx.id_counter :=
            mkHandle_eq _ h1 hlt
          have hstep : (stepCtx ctx (Op.createFence ld fl)).id_counter
              = ctx.id_counter + 1 := rfl
          obtain ⟨hmem, hnd⟩ := ih (stepCtx ctx (Op.createFence ld fl))
            (by rw [hstep]; omega) (by rw [hstep]; omega)
          have hhd : (Fence.create ctx ld fl).1 = some ctx.id_counter := hmk
          constructor
          · intro h hh
            simp only [returnedHandles] at hh
            rcases List.mem_cons.mp hh with h' | h'
            · exact ⟨ctx.id_counter, by rw [h', hhd], le_refl _⟩
            · obtain ⟨v, hv, hle⟩ := hmem h h'
              rw [hstep] at hle
              exact ⟨v, hv, by omega⟩
          · simp only [returnedHandles]
            refine List.nodup_cons.mpr ⟨?_, hnd⟩
            intro hmem'
            obtain ⟨v, hv, hle⟩ := hmem _ hmem'
            rw [hstep] at hle
            rw [hhd] at hv
            have : ctx.id_counter = v := by injection hv
            omega
      | createSemaphore fl =>
          have hcnt : countRegs (Op.createSemaphore fl :: ops) = countRegs ops + 1 := rfl
          have hlt : ctx.id_counter < U64_MOD := by omega
          have hmk : mkHandle ctx.id_counter = some ctx.id_counter :=
            mkHandle_eq _ h1 hlt
          have hstep : (stepCtx ctx (Op.createSemaphore fl)).id_counter
              = ctx.id_counter + 1 := rfl
          obtain ⟨hmem, hnd⟩ := ih (stepCtx ctx (Op.createSemaphore fl))
            (by rw [hstep]; omega) (by rw [hstep]; omega)
          have hhd : (Semaphore.create ctx fl).1 = some ctx.id_counter := hmk
          constructor
          · intro h hh
            simp only [returnedHandles] at hh
            rcases List.mem_cons.mp hh with h' | h'
            · exact ⟨ctx.id_counter, by rw [h', hhd], le_refl _⟩
            · obtain ⟨v, hv, hle⟩ := hmem h h'
              rw [hstep] at hle
              exact ⟨v, hv, by omega⟩
          · simp only [returnedHandles]
            refine List.nodup_cons.mpr ⟨?_, hnd⟩
            intro hmem'
            obtain ⟨v, hv, hle⟩ := hmem _ hmem'
            rw [hstep] at hle
            rw [hhd] at hv
            have : ctx.id_counter = v := by injection hv
            omega
      | destroyFence hD =>
          have hstep : (stepCtx ctx (Op.destroyFence hD)).id_counter
              = ctx.id_counter := rfl
          obtain ⟨hmem, hnd⟩ := ih (stepCtx ctx (Op.destroyFence hD))
            (by rw [hstep]; omega) (by rw [hstep]; exact h2)
          refine ⟨?_, by simpa only [returnedHandles] using hnd⟩
          intro h hh
          simp only [returnedHandles] at hh
          obtain ⟨v, hv, hle⟩ := hmem h hh
          rw [hstep] at hle
          exact ⟨v, hv, hle⟩
      | destroySemaphore hD =>
          have hstep : (stepCtx ctx (Op.destroySemaphore hD)).id_counter
              = ctx.id_counter := rfl
          obtain ⟨hmem, hnd⟩ := ih (stepCtx ctx (Op.destroySemaphore hD))
            (by rw [hstep]; omega) (by rw [hstep]; exact h2)
          refine ⟨?_, by simpa only [returnedHandles] using hnd⟩
          intro h hh
          simp only [returnedHandles] at hh
          obtain ⟨v, hv, hle⟩ := hmem h hh
          rw [hstep] at hle
          exact ⟨v, hv, hle⟩

/-- C2: along any trace of non-dispatchable registrations interleaved with
destructions - as long as the process performs fewer than `2^64` registrations
so that `ID_COUNTER` cannot wrap - all returned `HandleId`s are pairwise
distinct and non-null; an identity handed out once is never handed out
again. -/
theorem nondispatchable_handle_ids_unique (ops : List Op)
    (hb : 1 + countRegs ops ≤ U64_MOD) :
    (returnedHandles Context.initial ops).Nodup ∧
    ∀ h ∈ returnedHandles Context.initial ops, h ≠ (none : Handle) := by
  obtain ⟨hmem, hnd⟩ := returnedHandles_bounded ops Context.initial (le_refl 1) hb
  refine ⟨hnd, ?_⟩
  intro h hh
  obtain ⟨v, hv, _⟩ := hmem h hh
  simp [hv]

/-- A concrete trace: two fence creations around a semaphore creation and a
fence destruction. -/
def traceA : List Op :=
  [.createFence 0 0, .createSemaphore 0, .destroyFence (some 1), .createFence 0 1]

/-- Witness for C2 on `traceA` (returned handles `[some 1, some 2, some 3]`). -/
theorem nondispatchable_handle_ids_unique_witness :
    (1 + countRegs traceA ≤ U64_MOD) ∧
    ((returnedHandles Context.initial traceA).Nodup ∧
      ∀ h ∈ returnedHandles Context.initial traceA, h ≠ (none : Handle)) :=
  ⟨by decide, nondispatchable_handle_ids_unique traceA (by decide)⟩

/-- Along any trace that cannot wrap `ID_COUNTER`, every key in every
registry map is a non-null handle. -/
theorem run_goodKeys (ops : List Op) :
    ∀ ctx : Context, GoodKeys ctx → 1 ≤ ctx.id_counter →
      ctx.id_counter + countRegs ops ≤ U64_MOD → GoodKeys (run ctx ops) := by
  induction ops with
  | nil => intro ctx hg _ _; exact hg
  | cons op ops ih =>
      intro ctx hg h1 h2
      rw [run]
      obtain ⟨hf, hs⟩ := hg
      cases op with
      | createFence ld fl =>
          have hcnt : countRegs (Op.createFence ld fl :: ops) = countRegs ops + 1 := rfl
          have hlt : ctx.id_counter < U64_MOD := by omega
          have hmk : mkHandle ctx.id_counter = some ctx.id_counter :=
            mkHandle_eq _ h1 hlt
          refine ih (stepCtx ctx (Op.createFence ld fl)) ⟨?_, ?_⟩
            (by rw [show (stepCtx ctx (Op.createFence ld fl)).id_counter
                  = ctx.id_counter + 1 from rfl]; omega)
            (by rw [show (stepCtx ctx (Op.createFence ld fl)).id_counter
                  = ctx.id_counter + 1 from rfl]; omega)
          · intro p hp
            simp only [stepCtx, Fence.create, Fence.register_object] at hp
            rcases AssocMap.mem_insert hp with he | hm
            · subst he
              simp [hmk]
            · exact hf p hm
          · intro p hp
            simp only [stepCtx, Fence.create, Fence.register_object] at hp
            exact hs p hp
      | createSemaphore fl =>
          have hcnt : countRegs (Op.createSemaphore fl :: ops) = countRegs ops + 1 := rfl
          have hlt : ctx.id_counter < U64_MOD := by omega
          have hmk : mkHandle ctx.id_counter = some ctx.id_counter :=
            mkHandle_eq _ h1 hlt
          refine ih (stepCtx ctx (Op.createSemaphore fl)) ⟨?_, ?_⟩
            (by rw [show (stepCtx ctx (Op.createSemaphore fl)).id_counter
                  = ctx.id_counter + 1 from rfl]; omega)
            (by rw [show (stepCtx ctx (Op.createSemaphore fl)).id_counter
                  = ctx.id_counter + 1 from rfl]; omega)
          · intro p hp
            simp only [stepCtx, Semaphore.create, Semaphore.register_object] at hp
            exact hf p hp
          · intro p hp
            simp only [stepCtx, Semaphore.create, Semaphore.register_object] at hp
            rcases AssocMap.mem_insert hp with he | hm
            · subst he
              simp [hmk]
            · exact hs p hm
      | destroyFence hD =>
          refine ih (stepCtx ctx (Op.destroyFence hD)) ⟨?_, ?_⟩ h1 h2
          · intro p hp
            exact hf p (AssocMap.mem_erase hp)
          · intro p hp
            exact hs p hp
      | destroySemaphore hD =>
          refine ih (stepCtx ctx (Op.destroySemaphore hD)) ⟨?_, ?_⟩ h1 h2
          · intro p hp
            exact hf p hp
          · intro p hp
            exact hs p (AssocMap.mem_erase hp)

/-- C8: destroying the null handle is a guaranteed no-op: in any state reached
from the initial one by a trace that cannot wrap `ID_COUNTER`, every
registered key is non-null, so `NonDispatchable::drop_handle` on the null
handle removes nothing and every registry collection is left unchanged (shown
for both non-dispatchable categories of the core). -/
theorem destroy_null_handle_noop (ops : List Op)
    (hb : 1 + countRegs ops ≤ U64_MOD) :
    Fence.drop_handle (run Context.initial ops) none = run Context.initial ops ∧
    Semaphore.drop_handle (run Context.initial ops) none
      = run Context.initial ops := by
  obtain ⟨hf, hs⟩ := run_goodKeys ops Context.initial
    ⟨fun p hp => absurd hp (by simp [Context.initial]),
     fun p hp => absurd hp (by simp [Context.initial])⟩ (le_refl 1) hb
  constructor
  · show { run Context.initial ops with
        fences := AssocMap.erase none (run Context.initial ops).fences }
      = run Context.initial ops
    rw [AssocMap.erase_of_keys_ne _ _ hf]
  · show { run Context.initial ops with
        semaphores := AssocMap.erase none (run Context.initial ops).semaphores }
      = run Context.initial ops
    rw [AssocMap.erase_of_keys_ne _ _ hs]

/-- A concrete trace for the null-destroy witness. -/
def traceB : List Op :=
  [.createFence 3 1, .createSemaphore 2, .destroySemaphore (some 2)]

/-- Witness for C8 on `traceB`. -/
theorem destroy_null_handle_noop_witness :
    (1 + countRegs traceB ≤ U64_MOD) ∧
    (Fence.drop_handle (run Context.initial traceB) none
        = run Context.initial traceB ∧
      Semaphore.drop_handle (run Context.initial traceB) none
        = run Context.initial traceB) :=
  ⟨by decide, destroy_null_handle_noop traceB (by decide)⟩

end VSR
